import Mathlib

/-!
Verification of the client-side data logic of the ClassPoll school-communication
application (`src/App.tsx`): the optimistic mutation engine (create / update /
vote flows with rollback on remote failure), the access filter, the login
check, the bulk-load normalization of polls, and the notification deriver.

Modeling conventions (shallow embedding of the TypeScript source):
- JavaScript `Date` values and timestamps are milliseconds since the epoch,
  modeled as `Int`.  `date-fns` `differenceInDays` / `differenceInHours`
  truncate the millisecond difference toward zero (time-zone and DST
  adjustments are not modeled).
- JavaScript numbers holding vote counts are modeled as `Int`.
- A JavaScript object used as a string-to-string map (the vote ledger
  `userVotes` / `voted_user_ids`) is modeled as an association list
  `List (String × String)`; the spread update `{ ...m, [k]: v }` replaces the
  value at the first occurrence of `k` in place or appends a new entry.
- `string | undefined` fields are `Option String`.  JavaScript truthiness on
  such a field (`!x`) is: `none` and `some ""` are falsy.
- Remote calls are not performed; each operation reports whether it issues a
  remote request, and the caller-visible success / failure of that request is
  an explicit `Bool` input that selects the success path or the compensating
  action of the source.
- Display-only strings built with locale formatting (e.g. the exam
  notification message) are replaced by the raw field they render.
-/

/-- Roles, from `UserRole` as used in the source (`ADMIN`, `RESPONSABLE`,
`ELEVE`). -/
inductive UserRole where
  | ADMIN
  | RESPONSABLE
  | ELEVE
deriving DecidableEq, BEq

/-- User record (`users` table mapped to camelCase in `fetchData`). -/
structure User where
  id : String
  name : String
  email : String
  password : String
  role : UserRole
  classGroup : Option String := none
deriving DecidableEq

/-- One poll option: id, text and current vote count. -/
structure PollOption where
  id : String
  text : String
  votes : Int
deriving DecidableEq

/-- Poll entity of the local cache; `userVotes` is the vote ledger mapping a
user id to the option id that user currently has selected. -/
structure Poll where
  id : String
  title : String
  options : List PollOption
  isAnonymous : Bool
  createdAt : Int
  expiresAt : Int
  targetClass : Option String
  createdById : String
  userVotes : List (String × String)
deriving DecidableEq

/-- Announcement entity of the local cache. -/
structure Announcement where
  id : String
  title : String
  subject : String
  meetLink : Option String
  date : Int
  isUrgent : Bool
  targetClass : Option String
  authorId : String
  authorName : String
deriving DecidableEq

/-- Exam entity of the local cache. -/
structure Exam where
  id : String
  subject : String
  date : Int
  startTime : String
  durationMinutes : Int
  room : String
  notes : Option String
  targetClass : Option String
  createdById : String
deriving DecidableEq

/-- Resource entity of the local cache. -/
structure Resource where
  id : String
  title : String
  type : String
  content : String
  subject : String
  description : Option String
  targetClass : Option String
  createdAt : Int
  createdById : String
deriving DecidableEq

/-- Notification categories (`alert` / `info` / `success`). -/
inductive NotifType where
  | alert
  | info
  | success
deriving DecidableEq

/-- Derived notification item (`AppNotification`), never persisted. -/
structure AppNotification where
  id : String
  type : NotifType
  title : String
  message : String
  linkTo : String
  timestamp : Int
deriving DecidableEq

/-- Input of `addAnnouncement` (`Omit<Announcement, 'id'|'authorId'|'authorName'>`). -/
structure AnnouncementData where
  title : String
  subject : String
  meetLink : Option String
  date : Int
  isUrgent : Bool
  targetClass : Option String
deriving DecidableEq

/-- Input of `addExam` (`Omit<Exam, 'id'|'createdById'>`). -/
structure ExamData where
  subject : String
  date : Int
  startTime : String
  durationMinutes : Int
  room : String
  notes : Option String
  targetClass : Option String
deriving DecidableEq

/-- Input of `addPoll` (`Omit<Poll, 'id'|'createdById'|'createdAt'|'userVotes'>`). -/
structure PollData where
  title : String
  options : List PollOption
  isAnonymous : Bool
  expiresAt : Int
  targetClass : Option String
deriving DecidableEq

/-- Input of `addResource` (`Omit<Resource, 'id'|'createdAt'>`). -/
structure ResourceData where
  title : String
  type : String
  content : String
  subject : String
  description : Option String
  targetClass : Option String
deriving DecidableEq

/-- Division of an integer millisecond difference by a positive unit,
truncated toward zero, as `date-fns` does for `differenceInDays` /
`differenceInHours` (fractional units are dropped). -/
def truncDiv (d : Int) (unit : Nat) : Int :=
  if 0 ≤ d then ((d.toNat / unit : Nat) : Int)
  else -(((-d).toNat / unit : Nat) : Int)

/-- `differenceInDays(a, b)` on millisecond timestamps. -/
def differenceInDays (a b : Int) : Int := truncDiv (a - b) 86400000

/-- `differenceInHours(a, b)` on millisecond timestamps. -/
def differenceInHours (a b : Int) : Int := truncDiv (a - b) 3600000

/-- JavaScript object property read `m[k]` on a string map: the value at the
first entry with key `k`, or `undefined`. -/
def jsGet (m : List (String × String)) (k : String) : Option String :=
  match m with
  | [] => none
  | e :: rest => if e.1 == k then some e.2 else jsGet rest k

/-- JavaScript object update `{ ...m, [k]: v }` on a string map: the first
entry with key `k` keeps its position and gets the new value; if no entry has
key `k` the pair is appended. -/
def jsSet (m : List (String × String)) (k v : String) : List (String × String) :=
  match m with
  | [] => [(k, v)]
  | e :: rest => if e.1 == k then (k, v) :: rest else e :: jsSet rest k v

/-- JavaScript truthiness of a `string | undefined` value: `undefined` and the
empty string are falsy. -/
def jsFalsyOpt : Option String → Bool
  | none => true
  | some s => s == ""

/-- `String.prototype.toLowerCase` restricted to the ASCII range (non-ASCII
case mapping is not modeled). -/
def toLowerStr (s : String) : String := String.mk (s.data.map Char.toLower)

/-- Whether the role is exempt from class-based visibility filtering
(`ADMIN` or `RESPONSABLE`). -/
def isUnrestricted (u : User) : Bool :=
  u.role == UserRole.ADMIN || u.role == UserRole.RESPONSABLE

/-- Item-visibility check performed by the four `filtered*` memos:
`!x.targetClass || x.targetClass === currentUser.classGroup`. -/
def codeVisible (u : User) (targetClass : Option String) : Bool :=
  jsFalsyOpt targetClass || targetClass == u.classGroup

/-- `filteredAnnouncements` from the source. -/
def filteredAnnouncements (cu : Option User) (anns : List Announcement) :
    List Announcement :=
  match cu with
  | none => anns
  | some u =>
    if isUnrestricted u then anns
    else anns.filter (fun a => codeVisible u a.targetClass)

/-- `filteredExams` from the source. -/
def filteredExams (cu : Option User) (exams : List Exam) : List Exam :=
  match cu with
  | none => exams
  | some u =>
    if isUnrestricted u then exams
    else exams.filter (fun e => codeVisible u e.targetClass)

/-- `filteredPolls` from the source. -/
def filteredPolls (cu : Option User) (polls : List Poll) : List Poll :=
  match cu with
  | none => polls
  | some u =>
    if isUnrestricted u then polls
    else polls.filter (fun p => codeVisible u p.targetClass)

/-- `filteredResources` from the source. -/
def filteredResources (cu : Option User) (ress : List Resource) : List Resource :=
  match cu with
  | none => ress
  | some u =>
    if isUnrestricted u then ress
    else ress.filter (fun r => codeVisible u r.targetClass)

/-- Visibility predicate written after the spec's words, amended to record the
code's truthiness behaviour: absent, empty, or equal to the class-group. -/
def specVisible (u : User) (targetClass : Option String) : Bool :=
  targetClass == none || targetClass == some "" || targetClass == u.classGroup

/-- Visibility predicate exactly as the claim words it: target class absent or
equal to the user's class-group. -/
def specVisibleOrig (u : User) (targetClass : Option String) : Bool :=
  targetClass == none || targetClass == u.classGroup

/-- `handleLogin`: find a user matching the email case-insensitively and the
password exactly; on success the found user becomes the current user.  Returns
the boolean result together with the resulting current user. -/
def handleLogin (email password : String) (users : List User)
    (cu : Option User) : Bool × Option User :=
  match users.find? (fun u =>
      toLowerStr u.email == toLowerStr email && u.password == password) with
  | some u => (true, some u)
  | none => (false, cu)

/-- `addAnnouncement`: no-op without a logged-in user; otherwise prepend the
new item, and on remote failure compensate by filtering the generated id out.
Returns the resulting collection and whether a remote insert was issued. -/
def addAnnouncement (cu : Option User) (newId : String) (d : AnnouncementData)
    (remoteFails : Bool) (anns : List Announcement) :
    List Announcement × Bool :=
  match cu with
  | none => (anns, false)
  | some u =>
    let newAnn : Announcement :=
      { id := newId, title := d.title, subject := d.subject,
        meetLink := d.meetLink, date := d.date, isUrgent := d.isUrgent,
        targetClass := d.targetClass, authorId := u.id, authorName := u.name }
    let optimistic := newAnn :: anns
    if remoteFails then (optimistic.filter (fun a => a.id != newId), true)
    else (optimistic, true)

/-- `addExam`: like `addAnnouncement` but the new item is appended. -/
def addExam (cu : Option User) (newId : String) (d : ExamData)
    (remoteFails : Bool) (exams : List Exam) : List Exam × Bool :=
  match cu with
  | none => (exams, false)
  | some u =>
    let newExam : Exam :=
      { id := newId, subject := d.subject, date := d.date,
        startTime := d.startTime, durationMinutes := d.durationMinutes,
        room := d.room, notes := d.notes, targetClass := d.targetClass,
        createdById := u.id }
    let optimistic := exams ++ [newExam]
    if remoteFails then (optimistic.filter (fun e => e.id != newId), true)
    else (optimistic, true)

/-- `addPoll`: the new poll is prepended with an empty vote ledger and the
current time as creation timestamp. -/
def addPoll (cu : Option User) (newId : String) (now : Int) (d : PollData)
    (remoteFails : Bool) (polls : List Poll) : List Poll × Bool :=
  match cu with
  | none => (polls, false)
  | some u =>
    let newPoll : Poll :=
      { id := newId, title := d.title, options := d.options,
        isAnonymous := d.isAnonymous, createdAt := now,
        expiresAt := d.expiresAt, targetClass := d.targetClass,
        createdById := u.id, userVotes := [] }
    let optimistic := newPoll :: polls
    if remoteFails then (optimistic.filter (fun p => p.id != newId), true)
    else (optimistic, true)

/-- `addResource`: prepend, with creation timestamp. -/
def addResource (cu : Option User) (newId : String) (now : Int)
    (d : ResourceData) (remoteFails : Bool) (ress : List Resource) :
    List Resource × Bool :=
  match cu with
  | none => (ress, false)
  | some u =>
    let newRes : Resource :=
      { id := newId, title := d.title, type := d.type, content := d.content,
        subject := d.subject, description := d.description,
        targetClass := d.targetClass, createdAt := now, createdById := u.id }
    let optimistic := newRes :: ress
    if remoteFails then (optimistic.filter (fun r => r.id != newId), true)
    else (optimistic, true)

/-- `updatePoll`: replace the poll with the caller-supplied one; on remote
failure restore the snapshot taken before the optimistic update. -/
def updatePoll (q : Poll) (remoteFails : Bool) (polls : List Poll) :
    List Poll × Bool :=
  let optimistic := polls.map (fun p => if p.id == q.id then q else p)
  if remoteFails then (polls, true) else (optimistic, true)

/-- Per-option count update of `votePoll`: decrement the previously selected
option (floored at zero), then increment the chosen one. -/
def voteOptionUpdate (previousOptionId : Option String) (optionId : String)
    (o : PollOption) : PollOption :=
  let v1 := if previousOptionId == some o.id then max 0 (o.votes - 1)
            else o.votes
  let v2 := if o.id == optionId then v1 + 1 else v1
  { o with votes := v2 }

/-- Core of `votePoll` on one poll: record the user's choice in the ledger,
decrement the previously selected option (floored at zero) and increment the
chosen one. -/
def voteApply (uid optionId : String) (p : Poll) : Poll :=
  let previousOptionId := jsGet p.userVotes uid
  let updatedUserVotes := jsSet p.userVotes uid optionId
  let updatedOptions :=
    p.options.map (voteOptionUpdate previousOptionId optionId)
  { p with userVotes := updatedUserVotes, options := updatedOptions }

/-- Result of `votePoll`: the (optimistically updated) poll collection and the
payload of the remote update, `none` when no remote call is issued.  A failed
remote vote triggers a full refetch, which is a separate bulk-load
transition. -/
structure VoteOutcome where
  polls : List Poll
  remote : Option (List (String × String) × List PollOption)
deriving DecidableEq

/-- `votePoll` from the source: no-op without a user, with an unknown poll id,
or when the user re-selects their current option; otherwise apply the vote
locally and issue the remote update. -/
def votePoll (cu : Option User) (pollId optionId : String)
    (polls : List Poll) : VoteOutcome :=
  match cu with
  | none => ⟨polls, none⟩
  | some u =>
    match polls.find? (fun p => p.id == pollId) with
    | none => ⟨polls, none⟩
    | some pollToUpdate =>
      if jsGet pollToUpdate.userVotes u.id == some optionId then
        ⟨polls, none⟩
      else
        let updatedPoll := voteApply u.id optionId pollToUpdate
        ⟨polls.map (fun p => if p.id == pollId then updatedPoll else p),
         some (updatedPoll.userVotes, updatedPoll.options)⟩

/-- Stored representation of a poll's `voted_user_ids` column: missing, the
legacy array format, or the current object-map format. -/
inductive RawVotes where
  | missing
  | arr (ids : List String)
  | obj (m : List (String × String))
deriving DecidableEq

/-- Poll row as returned by the remote store before `fetchData` maps it. -/
structure RawPoll where
  id : String
  title : String
  options : Option (List PollOption)
  is_anonymous : Bool
  created_at : Int
  expires_at : Int
  target_class : Option String
  created_by_id : String
  voted_user_ids : RawVotes
deriving DecidableEq

/-- Ledger normalization in `fetchData`: only an object map is kept; a missing
value or the legacy array becomes the empty ledger. -/
def normalizeVotes : RawVotes → List (String × String)
  | .obj m => m
  | _ => []

/-- Row-to-entity mapping for polls in `fetchData` (`p.options || []`,
normalized ledger). -/
def mapRawPoll (r : RawPoll) : Poll :=
  { id := r.id, title := r.title, options := r.options.getD [],
    isAnonymous := r.is_anonymous, createdAt := r.created_at,
    expiresAt := r.expires_at, targetClass := r.target_class,
    createdById := r.created_by_id,
    userVotes := normalizeVotes r.voted_user_ids }

/-- Alert condition for an exam in the notification deriver:
`differenceInDays(exam.date, now)` between 0 and 7. -/
def examInWindow (now : Int) (e : Exam) : Bool :=
  let daysLeft := differenceInDays e.date now
  decide (0 ≤ daysLeft) && decide (daysLeft ≤ 7)

/-- Info condition for an announcement: `differenceInHours(now, ann.date)`
between 0 and 48. -/
def annInWindow (now : Int) (a : Announcement) : Bool :=
  let hoursAgo := differenceInHours now a.date
  decide (0 ≤ hoursAgo) && decide (hoursAgo ≤ 48)

/-- Success condition for a poll: created within the 48-hour window and the
current user's ledger value is falsy (absent or empty string). -/
def pollNotifCond (uid : String) (now : Int) (p : Poll) : Bool :=
  let hoursAgo := differenceInHours now p.createdAt
  let hasVoted := match jsGet p.userVotes uid with
    | some s => s != ""
    | none => false
  decide (0 ≤ hoursAgo) && decide (hoursAgo ≤ 48) && !hasVoted

/-- Alert item built for an upcoming exam (the locale-formatted date in the
message is replaced by the start time it is rendered with). -/
def examNotif (e : Exam) : AppNotification :=
  { id := "exam-" ++ e.id, type := .alert, title := "Examen: " ++ e.subject,
    message := e.startTime, linkTo := "DS", timestamp := e.date }

/-- Info item built for a recent announcement. -/
def annNotif (a : Announcement) : AppNotification :=
  { id := "ann-" ++ a.id, type := .info,
    title := if a.isUrgent then "URGENT: " ++ a.title
             else "Annonce: " ++ a.title,
    message := a.subject, linkTo := "INFOS", timestamp := a.date }

/-- Success item built for a fresh unvoted poll. -/
def pollNotif (p : Poll) : AppNotification :=
  { id := "poll-" ++ p.id, type := .success, title := "Nouveau sondage",
    message := p.title, linkTo := "POLLS", timestamp := p.createdAt }

/-- Stable insertion of a notification into a list sorted by descending
timestamp. -/
def insertByTs (x : AppNotification) : List AppNotification →
    List AppNotification
  | [] => [x]
  | y :: l => if decide (y.timestamp ≤ x.timestamp) then x :: y :: l
              else y :: insertByTs x l

/-- Stable sort by descending timestamp, the result of the stable JavaScript
`sort((a, b) => b.timestamp - a.timestamp)`. -/
def sortByTsDesc : List AppNotification → List AppNotification
  | [] => []
  | x :: l => insertByTs x (sortByTsDesc l)

/-- The notification deriver: empty without a user, otherwise exam alerts,
announcement infos and poll successes, sorted by descending timestamp.  Its
collection arguments are the access-filtered (visible) collections, as in the
source memo. -/
def notifications (cu : Option User) (exams : List Exam)
    (anns : List Announcement) (polls : List Poll) (now : Int) :
    List AppNotification :=
  match cu with
  | none => []
  | some u =>
    sortByTsDesc
      ((exams.filter (examInWindow now)).map examNotif
        ++ (anns.filter (annInWindow now)).map annNotif
        ++ (polls.filter (pollNotifCond u.id now)).map pollNotif)

/-- Number of ledger entries currently selecting option id `x`. -/
def ledgerCount (l : List (String × String)) (x : String) : Nat :=
  (l.filter (fun e => e.2 == x)).length

/-- Sum of the option vote counts of a poll. -/
def sumVotes (p : Poll) : Int := (p.options.map PollOption.votes).sum

/-- Consistency of a poll's denormalized vote counts with its ledger: option
ids are distinct, every ledger entry selects an existing option, and each
option's count equals the number of ledger entries selecting it. -/
structure PollWF (p : Poll) : Prop where
  nodupIds : (p.options.map PollOption.id).Nodup
  validEntries : ∀ e ∈ p.userVotes, e.2 ∈ p.options.map PollOption.id
  counts : ∀ o ∈ p.options, o.votes = (ledgerCount p.userVotes o.id : Int)

/-- States of the poll collection reachable from the initial empty cache by
the operations the claim lists, with unconstrained operation inputs: bulk
load of arbitrary stored rows, `addPoll` with arbitrary caller data,
`updatePoll` with an arbitrary poll, and `votePoll`. -/
inductive PollsReach : List Poll → Prop where
  | init : PollsReach []
  | load (s : List Poll) (hs : PollsReach s) (raw : List RawPoll) :
      PollsReach (raw.map mapRawPoll)
  | add (s : List Poll) (hs : PollsReach s) (cu : Option User)
      (newId : String) (now : Int) (d : PollData) (fails : Bool) :
      PollsReach (addPoll cu newId now d fails s).1
  | update (s : List Poll) (hs : PollsReach s) (q : Poll) (fails : Bool) :
      PollsReach (updatePoll q fails s).1
  | vote (s : List Poll) (hs : PollsReach s) (cu : Option User)
      (pollId optionId : String) :
      PollsReach (votePoll cu pollId optionId s).polls

/-- Reachable states when every operation installs consistent data: loaded or
updated polls satisfy `PollWF`, created polls carry all-zero counts and
distinct option ids (as the poll form produces), and votes name an option of
the poll (as the poll view does). -/
inductive PollsReachWF : List Poll → Prop where
  | init : PollsReachWF []
  | load (s : List Poll) (hs : PollsReachWF s) (raw : List RawPoll)
      (hwf : ∀ p ∈ raw.map mapRawPoll, PollWF p) :
      PollsReachWF (raw.map mapRawPoll)
  | add (s : List Poll) (hs : PollsReachWF s) (cu : Option User)
      (newId : String) (now : Int) (d : PollData) (fails : Bool)
      (hz : ∀ o ∈ d.options, o.votes = 0)
      (hn : (d.options.map PollOption.id).Nodup) :
      PollsReachWF (addPoll cu newId now d fails s).1
  | update (s : List Poll) (hs : PollsReachWF s) (q : Poll) (fails : Bool)
      (hq : PollWF q) :
      PollsReachWF (updatePoll q fails s).1
  | vote (s : List Poll) (hs : PollsReachWF s) (cu : Option User)
      (pollId optionId : String)
      (hopt : ∀ p ∈ s, p.id = pollId → optionId ∈ p.options.map PollOption.id) :
      PollsReachWF (votePoll cu pollId optionId s).polls

/-- Concrete student user used in witnesses and counterexamples. -/
def uStudent : User :=
  { id := "u0", name := "Alice", email := "alice@eco.com", password := "pw",
    role := .ELEVE, classGroup := some "10B" }

/-- Concrete student in class 10A. -/
def uStudentA : User :=
  { id := "u1", name := "Bob", email := "bob@eco.com", password := "pw",
    role := .ELEVE, classGroup := some "10A" }

/-- Concrete admin user. -/
def uAdmin : User :=
  { id := "ua", name := "Root", email := "root@eco.com", password := "pw",
    role := .ADMIN, classGroup := none }

/-- Concrete poll where `uStudent` currently votes for option `optA`. -/
def pollEx : Poll :=
  { id := "p1", title := "Question", isAnonymous := false, createdAt := 0,
    expiresAt := 604800000, targetClass := none, createdById := "ua",
    options := [⟨"optA", "A", 1⟩, ⟨"optB", "B", 0⟩],
    userVotes := [("u0", "optA")] }

/-- Concrete poll data with all-zero counts, as the poll form produces. -/
def pollData0 : PollData :=
  { title := "Fresh", options := [⟨"o1", "Yes", 0⟩, ⟨"o2", "No", 0⟩],
    isAnonymous := false, expiresAt := 604800000, targetClass := none }

/-- The poll `addPoll uAdmin "p2" 0 pollData0` creates. -/
def pollNew0 : Poll :=
  { id := "p2", title := "Fresh", options := [⟨"o1", "Yes", 0⟩, ⟨"o2", "No", 0⟩],
    isAnonymous := false, createdAt := 0, expiresAt := 604800000,
    targetClass := none, createdById := "ua", userVotes := [] }

/-- Legacy stored poll row: array-format ledger together with a nonzero
denormalized count. -/
def rawLegacy : RawPoll :=
  { id := "p9", title := "Legacy", options := some [⟨"o1", "Yes", 1⟩],
    is_anonymous := false, created_at := 0, expires_at := 0,
    target_class := none, created_by_id := "ua",
    voted_user_ids := .arr ["u1"] }

/-- The poll the bulk load builds from `rawLegacy`. -/
def pollLegacy : Poll := mapRawPoll rawLegacy

/-- Concrete announcement data used in create-flow examples. -/
def annData0 : AnnouncementData :=
  { title := "T", subject := "S", meetLink := none, date := 0,
    isUrgent := false, targetClass := none }

/-- Concrete exam data used in create-flow examples. -/
def examData0 : ExamData :=
  { subject := "Math", date := 0, startTime := "08:00",
    durationMinutes := 60, room := "B12", notes := none, targetClass := none }

/-- Concrete resource data used in create-flow examples. -/
def resData0 : ResourceData :=
  { title := "Doc", type := "pdf", content := "c", subject := "S",
    description := none, targetClass := none }

/-- Announcement with id `x`, already present before a colliding create. -/
def annX : Announcement :=
  { id := "x", title := "Old", subject := "S", meetLink := none, date := 0,
    isUrgent := false, targetClass := none, authorId := "ua",
    authorName := "Root" }

/-- School-wide announcement (no target class). -/
def annWide : Announcement :=
  { id := "a1", title := "Wide", subject := "S", meetLink := none, date := 0,
    isUrgent := false, targetClass := none, authorId := "ua",
    authorName := "Root" }

/-- Announcement restricted to class 10A. -/
def ann10A : Announcement :=
  { id := "a2", title := "Only10A", subject := "S", meetLink := none,
    date := 0, isUrgent := false, targetClass := some "10A",
    authorId := "ua", authorName := "Root" }

/-- Announcement whose stored target class is the empty string. -/
def annEmptyTC : Announcement :=
  { id := "a3", title := "EmptyTC", subject := "S", meetLink := none,
    date := 0, isUrgent := false, targetClass := some "",
    authorId := "ua", authorName := "Root" }

/-- Exam dated exactly seven days after time 0. -/
def exam7d : Exam :=
  { id := "e7", subject := "Math", date := 604800000, startTime := "08:00",
    durationMinutes := 60, room := "B12", notes := none, targetClass := none,
    createdById := "ua" }

/-- Exam dated one hour before time 0. -/
def examPast1h : Exam :=
  { id := "e8", subject := "Hist", date := -3600000, startTime := "09:00",
    durationMinutes := 60, room := "B13", notes := none, targetClass := none,
    createdById := "ua" }

/-- Poll created at time 0 with an empty ledger. -/
def pollFresh : Poll :=
  { id := "p5", title := "Vote now", options := [⟨"o1", "Yes", 0⟩],
    isAnonymous := false, createdAt := 0, expiresAt := 604800000,
    targetClass := none, createdById := "ua", userVotes := [] }

theorem ledgerCount_nil (x : String) : ledgerCount [] x = 0 := rfl

theorem ledgerCount_cons (e : String × String) (m : List (String × String))
    (x : String) :
    ledgerCount (e :: m) x = (if e.2 == x then 1 else 0) + ledgerCount m x := by
  simp only [ledgerCount, List.filter_cons]
  split <;> simp [Nat.add_comm]

theorem mem_of_jsGet_eq_some (k w : String) :
    ∀ m : List (String × String), jsGet m k = some w → (k, w) ∈ m := by
  intro m
  induction m with
  | nil => intro h; cases h
  | cons e m ih =>
    intro h
    unfold jsGet at h
    by_cases hk : e.1 == k
    · rw [if_pos hk] at h
      have h2 : e.1 = k := eq_of_beq hk
      have h3 : e.2 = w := Option.some.inj h
      have h4 : (k, w) = e := by rw [← h2, ← h3]
      exact h4 ▸ List.mem_cons_self _ _
    · rw [if_neg hk] at h
      exact List.mem_cons_of_mem _ (ih h)

theorem ledgerCount_pos_of_mem (k w : String) (m : List (String × String))
    (h : (k, w) ∈ m) : 1 ≤ ledgerCount m w := by
  have hmem : (k, w) ∈ m.filter (fun e => e.2 == w) :=
    List.mem_filter.mpr ⟨h, by simp⟩
  have := List.length_pos_of_mem hmem
  simpa [ledgerCount] using this

theorem mem_jsSet (k v : String) :
    ∀ m : List (String × String), ∀ e' ∈ jsSet m k v, e' ∈ m ∨ e' = (k, v) := by
  intro m
  induction m with
  | nil => intro e' h; simp [jsSet] at h; right; exact h
  | cons e m ih =>
    intro e' h
    unfold jsSet at h
    split at h
    · rcases List.mem_cons.mp h with h1 | h1
      · right; exact h1
      · left; exact List.mem_cons_of_mem _ h1
    · rcases List.mem_cons.mp h with h1 | h1
      · left; exact h1 ▸ List.mem_cons_self _ _
      · rcases ih e' h1 with h2 | h2
        · left; exact List.mem_cons_of_mem _ h2
        · right; exact h2

theorem jsGet_jsSet_self (k v : String) :
    ∀ m : List (String × String), jsGet (jsSet m k v) k = some v := by
  intro m
  induction m with
  | nil => simp [jsSet, jsGet]
  | cons e m ih =>
    unfold jsSet
    split
    · simp [jsGet]
    · rename_i hne
      unfold jsGet
      rw [if_neg hne, ih]

theorem jsGet_jsSet_ne (k v k' : String) (hne : k' ≠ k) :
    ∀ m : List (String × String), jsGet (jsSet m k v) k' = jsGet m k' := by
  intro m
  induction m with
  | nil =>
    simp only [jsSet, jsGet, if_neg (show ¬((k, v).1 == k') = true by
      simpa using fun h => hne h.symm)]
  | cons e m ih =>
    unfold jsSet
    split
    · rename_i hk
      unfold jsGet
      rw [if_neg (show ¬((k, v).1 == k') = true by
        simpa using fun h => hne h.symm), if_neg]
      intro h
      exact hne ((eq_of_beq hk).symm.trans (eq_of_beq h)).symm
    · unfold jsGet
      split
      · rfl
      · exact ih

theorem ledgerCount_jsSet_of_jsGet_none (k v x : String) :
    ∀ m : List (String × String), jsGet m k = none →
      ledgerCount (jsSet m k v) x
        = ledgerCount m x + (if v == x then 1 else 0) := by
  intro m
  induction m with
  | nil =>
    intro _
    simp [jsSet, ledgerCount_cons, ledgerCount_nil, Nat.add_comm]
  | cons e m ih =>
    intro hl
    unfold jsGet at hl
    by_cases hk : e.1 == k
    · rw [if_pos hk] at hl; cases hl
    · rw [if_neg hk] at hl
      unfold jsSet
      rw [if_neg hk, ledgerCount_cons, ledgerCount_cons, ih hl]
      omega

theorem sum_map_zero (opts : List PollOption) :
    (opts.map (fun _ => (0 : Int))).sum = 0 := by
  induction opts with
  | nil => rfl
  | cons o opts ih => simp [ih]

theorem sum_map_add (f g : PollOption → Int) :
    ∀ opts : List PollOption,
      (opts.map (fun o => f o + g o)).sum = (opts.map f).sum + (opts.map g).sum := by
  intro opts
  induction opts with
  | nil => rfl
  | cons o opts ih => simp [ih]; ring

theorem sum_indicator_zero (x : String) :
    ∀ opts : List PollOption, x ∉ opts.map PollOption.id →
      (opts.map (fun o => if o.id = x then (1 : Int) else 0)).sum = 0 := by
  intro opts
  induction opts with
  | nil => intro _; rfl
  | cons o opts ih =>
    intro hx
    rw [List.map_cons] at hx
    have h1 : o.id ≠ x := fun h => hx (h ▸ List.mem_cons_self _ _)
    have h2 : x ∉ opts.map PollOption.id := fun h => hx (List.mem_cons_of_mem _ h)
    simp [h1, ih h2]

theorem sum_indicator_one (x : String) :
    ∀ opts : List PollOption, (opts.map PollOption.id).Nodup →
      x ∈ opts.map PollOption.id →
      (opts.map (fun o => if o.id = x then (1 : Int) else 0)).sum = 1 := by
  intro opts
  induction opts with
  | nil => intro _ hx; cases hx
  | cons o opts ih =>
    intro hnd hx
    rw [List.map_cons, List.nodup_cons] at hnd
    rcases List.mem_cons.mp hx with h1 | h1
    · have h2 : x ∉ opts.map PollOption.id := h1 ▸ hnd.1
      simp [h1.symm, sum_indicator_zero x opts h2]
    · have h2 : o.id ≠ x := by
        intro h
        exact hnd.1 (h ▸ h1)
      simp [h2, ih hnd.2 h1]

theorem sum_ledgerCount (opts : List PollOption)
    (hnd : (opts.map PollOption.id).Nodup) :
    ∀ l : List (String × String),
      (∀ e ∈ l, e.2 ∈ opts.map PollOption.id) →
      (opts.map (fun o => ((ledgerCount l o.id : Nat) : Int))).sum
        = l.length := by
  intro l
  induction l with
  | nil =>
    intro _
    have h1 : opts.map
        (fun o => ((ledgerCount ([] : List (String × String)) o.id : Nat) : Int))
        = opts.map (fun _ => (0 : Int)) :=
      List.map_congr_left (fun o _ => by simp [ledgerCount_nil])
    rw [h1, sum_map_zero]
    rfl
  | cons e l ih =>
    intro hval
    have hv_e : e.2 ∈ opts.map PollOption.id := hval e (List.mem_cons_self _ _)
    have hv_l : ∀ e' ∈ l, e'.2 ∈ opts.map PollOption.id :=
      fun e' he' => hval e' (List.mem_cons_of_mem _ he')
    have hpt : opts.map (fun o => ((ledgerCount (e :: l) o.id : Nat) : Int))
        = opts.map (fun o =>
            (if o.id = e.2 then (1 : Int) else 0)
              + ((ledgerCount l o.id : Nat) : Int)) := by
      apply List.map_congr_left
      intro o _
      rw [ledgerCount_cons]
      push_cast
      congr 1
      by_cases h : o.id = e.2
      · simp [h]
      · have h2 : ¬e.2 = o.id := fun hh => h hh.symm
        simp [h, h2]
    rw [hpt, sum_map_add, sum_indicator_one e.2 opts hnd hv_e, ih hv_l]
    simp
    ring

theorem ledgerCount_jsSet_of_jsGet_some (k v x w : String) :
    ∀ m : List (String × String), jsGet m k = some w →
      ledgerCount (jsSet m k v) x + (if w == x then 1 else 0)
        = ledgerCount m x + (if v == x then 1 else 0) := by
  intro m
  induction m with
  | nil => intro h; cases h
  | cons e m ih =>
    intro hl
    unfold jsGet at hl
    by_cases hk : e.1 == k
    · rw [if_pos hk] at hl
      obtain rfl : e.2 = w := Option.some.inj hl
      unfold jsSet
      rw [if_pos hk, ledgerCount_cons, ledgerCount_cons]
      simp only [show ((k, v).2 : String) = v from rfl]
      omega
    · rw [if_neg hk] at hl
      unfold jsSet
      rw [if_neg hk, ledgerCount_cons, ledgerCount_cons]
      have := ih hl
      omega

theorem sumVotes_eq_of_WF (p : Poll) (h : PollWF p) :
    sumVotes p = (p.userVotes.length : Int) := by
  have hmap : p.options.map PollOption.votes
      = p.options.map (fun o => ((ledgerCount p.userVotes o.id : Nat) : Int)) :=
    List.map_congr_left (fun o ho => h.counts o ho)
  rw [sumVotes, hmap,
    sum_ledgerCount p.options h.nodupIds p.userVotes h.validEntries]

theorem voteApply_WF (uid oid : String) (p : Poll) (hwf : PollWF p)
    (hoid : oid ∈ p.options.map PollOption.id)
    (hprev : jsGet p.userVotes uid ≠ some oid) :
    PollWF (voteApply uid oid p) := by
  have hopts : (voteApply uid oid p).options = p.options.map (fun o =>
      { o with votes :=
          if o.id == oid
          then (if jsGet p.userVotes uid == some o.id
                then max 0 (o.votes - 1) else o.votes) + 1
          else (if jsGet p.userVotes uid == some o.id
                then max 0 (o.votes - 1) else o.votes) }) := rfl
  have hledger : (voteApply uid oid p).userVotes = jsSet p.userVotes uid oid := rfl
  have hids : (voteApply uid oid p).options.map PollOption.id
      = p.options.map PollOption.id := by
    rw [hopts, List.map_map]
    exact List.map_congr_left (fun o _ => rfl)
  refine ⟨?_, ?_, ?_⟩
  · rw [hids]; exact hwf.nodupIds
  · intro e he
    rw [hids]
    rw [hledger] at he
    rcases mem_jsSet uid oid p.userVotes e he with h1 | h1
    · exact hwf.validEntries e h1
    · rw [h1]; exact hoid
  · intro o' ho'
    rw [hopts] at ho'
    obtain ⟨o, ho, rfl⟩ := List.mem_map.mp ho'
    rw [hledger]
    have hco := hwf.counts o ho
    show (if o.id == oid
        then (if jsGet p.userVotes uid == some o.id
              then max 0 (o.votes - 1) else o.votes) + 1
        else (if jsGet p.userVotes uid == some o.id
              then max 0 (o.votes - 1) else o.votes))
      = (ledgerCount (jsSet p.userVotes uid oid) o.id : Int)
    cases hl : jsGet p.userVotes uid with
    | none =>
      have hcnt := ledgerCount_jsSet_of_jsGet_none uid oid o.id p.userVotes hl
      by_cases hid : o.id = oid
      · rw [if_pos (by simpa using hid),
          if_neg (by simp : ¬((none : Option String) == some o.id) = true),
          hcnt, if_pos (by simpa using hid.symm)]
        push_cast
        omega
      · rw [if_neg (by simpa using hid),
          if_neg (by simp : ¬((none : Option String) == some o.id) = true),
          hcnt, if_neg (by simpa using fun h => hid (Eq.symm h))]
        push_cast
        omega
    | some w =>
      have hw : w ≠ oid := fun h => hprev (by rw [hl, h])
      have hcnt := ledgerCount_jsSet_of_jsGet_some uid oid o.id w p.userVotes hl
      by_cases hid1 : o.id = w
      · have hid2 : ¬o.id = oid := fun h => hw (hid1 ▸ h)
        have hmem := mem_of_jsGet_eq_some uid w p.userVotes hl
        have hpos : 1 ≤ ledgerCount p.userVotes o.id := by
          rw [hid1]
          exact ledgerCount_pos_of_mem uid w p.userVotes hmem
        have hvpos : 1 ≤ o.votes := by
          rw [hco]
          exact_mod_cast hpos
        rw [if_neg (by simpa using hid2),
          if_pos (by simpa using hid1.symm)]
        rw [if_pos (by simpa using hid1.symm),
          if_neg (by simpa using fun h => hid2 (Eq.symm h))] at hcnt
        have hmax : max 0 (o.votes - 1) = o.votes - 1 :=
          max_eq_right (by omega)
        rw [hmax, hco]
        omega
      · by_cases hid3 : o.id = oid
        · rw [if_pos (by simpa using hid3),
            if_neg (by simpa using fun h => hid1 (Eq.symm h))]
          rw [if_neg (by simpa using fun h => hid1 (Eq.symm h)),
            if_pos (by simpa using hid3.symm)] at hcnt
          rw [hco]
          omega
        · rw [if_neg (by simpa using hid3),
            if_neg (by simpa using fun h => hid1 (Eq.symm h))]
          rw [if_neg (by simpa using fun h => hid1 (Eq.symm h)),
            if_neg (by simpa using fun h => hid3 (Eq.symm h))] at hcnt
          rw [hco]
          omega

theorem addPoll_preserves_WF (cu : Option User) (newId : String) (now : Int)
    (d : PollData) (fails : Bool) (s : List Poll)
    (hall : ∀ p ∈ s, PollWF p)
    (hz : ∀ o ∈ d.options, o.votes = 0)
    (hn : (d.options.map PollOption.id).Nodup) :
    ∀ p ∈ (addPoll cu newId now d fails s).1, PollWF p := by
  cases cu with
  | none => simpa [addPoll] using hall
  | some u =>
    intro p hp
    have hnew : PollWF
        { id := newId, title := d.title, options := d.options,
          isAnonymous := d.isAnonymous, createdAt := now,
          expiresAt := d.expiresAt, targetClass := d.targetClass,
          createdById := u.id, userVotes := [] } := by
      refine ⟨hn, by simp, ?_⟩
      intro o ho
      rw [hz o ho]
      simp [ledgerCount_nil]
    cases fails with
    | true =>
      simp only [addPoll] at hp
      have hp2 := List.mem_of_mem_filter hp
      rcases List.mem_cons.mp hp2 with rfl | hmem
      · exact hnew
      · exact hall p hmem
    | false =>
      simp only [addPoll] at hp
      rcases List.mem_cons.mp hp with rfl | hmem
      · exact hnew
      · exact hall p hmem

theorem updatePoll_preserves_WF (q : Poll) (fails : Bool) (s : List Poll)
    (hall : ∀ p ∈ s, PollWF p) (hq : PollWF q) :
    ∀ p ∈ (updatePoll q fails s).1, PollWF p := by
  cases fails with
  | true => simpa [updatePoll] using hall
  | false =>
    intro p hp
    simp only [updatePoll] at hp
    obtain ⟨r, hr, hrp⟩ := List.mem_map.mp hp
    by_cases h : r.id == q.id
    · rw [if_pos h] at hrp; exact hrp ▸ hq
    · rw [if_neg h] at hrp; exact hrp ▸ hall r hr

theorem votePoll_preserves_WF (cu : Option User) (pollId optionId : String)
    (s : List Poll) (hall : ∀ p ∈ s, PollWF p)
    (hopt : ∀ p ∈ s, p.id = pollId → optionId ∈ p.options.map PollOption.id) :
    ∀ p ∈ (votePoll cu pollId optionId s).polls, PollWF p := by
  cases cu with
  | none => simpa [votePoll] using hall
  | some u =>
    cases hfind : s.find? (fun p => p.id == pollId) with
    | none => simpa [votePoll, hfind] using hall
    | some P =>
      by_cases hguard : jsGet P.userVotes u.id == some optionId
      · simpa [votePoll, hfind, hguard] using hall
      · have hPmem : P ∈ s := List.mem_of_find?_eq_some hfind
        have hPid : P.id = pollId := by
          have := List.find?_some hfind
          simpa using this
        have hWFP : PollWF P := hall P hPmem
        have hop : optionId ∈ P.options.map PollOption.id := hopt P hPmem hPid
        have hprev : jsGet P.userVotes u.id ≠ some optionId := by
          simpa using hguard
        have hWFup := voteApply_WF u.id optionId P hWFP hop hprev
        intro p hp
        simp only [votePoll, hfind, if_neg hguard] at hp
        obtain ⟨r, hr, hrp⟩ := List.mem_map.mp hp
        by_cases h : r.id == pollId
        · rw [if_pos h] at hrp; exact hrp ▸ hWFup
        · rw [if_neg h] at hrp; exact hrp ▸ hall r hr

theorem pollsReachWF_all_WF (s : List Poll) (h : PollsReachWF s) :
    ∀ p ∈ s, PollWF p := by
  induction h with
  | init => intro p hp; cases hp
  | load s hs raw hwf ih => exact hwf
  | add s hs cu newId now d fails hz hn ih =>
    exact addPoll_preserves_WF cu newId now d fails s ih hz hn
  | update s hs q fails hq ih => exact updatePoll_preserves_WF q fails s ih hq
  | vote s hs cu pollId optionId hopt ih =>
    exact votePoll_preserves_WF cu pollId optionId s ih hopt

/-- C1 (amended): at every state of the poll collection reachable from the
empty cache by bulk load, `addPoll`, `updatePoll` and `votePoll`, where each
operation installs consistent data (loaded or updated polls have counts
matching their ledger, created polls carry all-zero counts and distinct
option ids, and votes name an option of the poll), the sum of an option's
vote counts equals the number of entries of the poll's vote ledger for every
poll in the collection. -/
theorem poll_vote_sum_invariant (s : List Poll) (hs : PollsReachWF s) :
    ∀ p ∈ s, sumVotes p = (p.userVotes.length : Int) :=
  fun p hp => sumVotes_eq_of_WF p (pollsReachWF_all_WF s hs p hp)

/-- Witness for C1's theorem: the state after creating one poll with zeroed
counts is reachable, and its sum of counts equals its ledger size. -/
theorem poll_vote_sum_invariant_witness :
    sumVotes pollNew0 = (pollNew0.userVotes.length : Int) :=
  poll_vote_sum_invariant ((addPoll (some uAdmin) "p2" 0 pollData0 false []).1)
    (PollsReachWF.add [] PollsReachWF.init (some uAdmin) "p2" 0 pollData0 false
      (by decide) (by decide))
    pollNew0 (by decide)

/-- Counterexample to C1 as stated: a single bulk load of a stored legacy
poll row (array-format ledger, nonzero denormalized count) reaches a state
whose only poll has option-count sum 1 but an empty vote ledger. -/
theorem poll_vote_sum_invariant_cex :
    PollsReach [pollLegacy]
      ∧ ¬sumVotes pollLegacy = (pollLegacy.userVotes.length : Int) := by
  constructor
  · exact PollsReach.load [] PollsReach.init [rawLegacy]
  · decide

theorem zip_map_snd {α β : Type} (f : α → β) :
    ∀ l : List α, ∀ pr ∈ l.zip (l.map f), pr.2 = f pr.1 := by
  intro l
  induction l with
  | nil => intro pr h; cases h
  | cons a l ih =>
    intro pr h
    rw [List.map_cons, List.zip_cons_cons] at h
    rcases List.mem_cons.mp h with rfl | h1
    · rfl
    · exact ih pr h1

theorem voteOptionUpdate_id (prev : Option String) (oid : String)
    (o : PollOption) : (voteOptionUpdate prev oid o).id = o.id := rfl

theorem voteOptionUpdate_votes (prev : Option String) (oid : String)
    (o : PollOption) :
    (voteOptionUpdate prev oid o).votes
      = if o.id == oid
        then (if prev == some o.id then max 0 (o.votes - 1) else o.votes) + 1
        else (if prev == some o.id then max 0 (o.votes - 1) else o.votes) := rfl

/-- C2: when the user's current ledger entry differs from the chosen option
(or is absent), `votePoll` replaces the identified poll by its updated copy
in which the ledger entry is set to the chosen option, the previously
selected option's count drops by exactly one (never below zero), the chosen
option's count rises by exactly one, and every other option's count is
unchanged. -/
theorem votePoll_revote_spec (u : User) (polls : List Poll)
    (pollId optionId : String) (P : Poll)
    (hfind : polls.find? (fun p => p.id == pollId) = some P)
    (hprev : ¬jsGet P.userVotes u.id = some optionId) :
    (votePoll (some u) pollId optionId polls).polls
        = polls.map (fun p => if p.id == pollId
            then voteApply u.id optionId P else p)
      ∧ jsGet (voteApply u.id optionId P).userVotes u.id = some optionId
      ∧ (voteApply u.id optionId P).options.length = P.options.length
      ∧ ∀ pr ∈ P.options.zip (voteApply u.id optionId P).options,
          pr.2.id = pr.1.id
          ∧ (pr.1.id = optionId → pr.2.votes = pr.1.votes + 1)
          ∧ (jsGet P.userVotes u.id = some pr.1.id →
              (1 ≤ pr.1.votes → pr.2.votes = pr.1.votes - 1)
              ∧ (pr.1.votes ≤ 0 → pr.2.votes = 0)
              ∧ 0 ≤ pr.2.votes)
          ∧ (¬pr.1.id = optionId → ¬jsGet P.userVotes u.id = some pr.1.id →
              pr.2.votes = pr.1.votes) := by
  have hguard : ¬(jsGet P.userVotes u.id == some optionId) = true := by
    simpa using hprev
  have hopts : (voteApply u.id optionId P).options
      = P.options.map (voteOptionUpdate (jsGet P.userVotes u.id) optionId) :=
    rfl
  refine ⟨?_, ?_, ?_, ?_⟩
  · simp only [votePoll, hfind, if_neg hguard]
  · exact jsGet_jsSet_self u.id optionId P.userVotes
  · rw [hopts, List.length_map]
  · intro pr hpr
    rw [hopts] at hpr
    have hsnd : pr.2 = voteOptionUpdate (jsGet P.userVotes u.id) optionId pr.1 :=
      zip_map_snd _ P.options pr hpr
    refine ⟨by rw [hsnd, voteOptionUpdate_id], ?_, ?_, ?_⟩
    · intro hid
      rw [hsnd, voteOptionUpdate_votes,
        if_pos (by simpa using hid),
        if_neg (by rw [hid]; simpa using hprev)]
    · intro hsel
      have hne : ¬pr.1.id = optionId := fun h => hprev (h ▸ hsel)
      rw [hsnd, voteOptionUpdate_votes,
        if_neg (by simpa using hne), if_pos (by simp [hsel])]
      refine ⟨fun h => max_eq_right (by omega), fun h => max_eq_left (by omega),
        le_max_left _ _⟩
    · intro hne hnsel
      rw [hsnd, voteOptionUpdate_votes,
        if_neg (by simpa using hne), if_neg (by simpa using hnsel)]

/-- Witness for C2's theorem: `uStudent` moves their vote on `pollEx` from
`optA` to `optB`, and the updated ledger records `optB`. -/
theorem votePoll_revote_spec_witness :
    jsGet (voteApply "u0" "optB" pollEx).userVotes "u0" = some "optB" :=
  (votePoll_revote_spec uStudent [pollEx] "p1" "optB" pollEx (by decide)
    (by decide)).2.1

/-- C3: voting for the currently selected option leaves the poll collection
untouched and issues no remote call. -/
theorem votePoll_same_option_noop (u : User) (polls : List Poll)
    (pollId optionId : String) (P : Poll)
    (hfind : polls.find? (fun p => p.id == pollId) = some P)
    (hsel : jsGet P.userVotes u.id = some optionId) :
    votePoll (some u) pollId optionId polls = ⟨polls, none⟩ := by
  simp [votePoll, hfind, hsel]

/-- Witness for C3's theorem: `uStudent` re-votes for their current option
`optA` on `pollEx` and nothing happens. -/
theorem votePoll_same_option_noop_witness :
    votePoll (some uStudent) "p1" "optA" [pollEx] = ⟨[pollEx], none⟩ :=
  votePoll_same_option_noop uStudent [pollEx] "p1" "optA" pollEx (by decide)
    (by decide)

/-- C9: a vote naming a poll id that identifies no poll of the local cache
changes nothing and issues no remote call. -/
theorem votePoll_unknown_poll_noop (cu : Option User) (polls : List Poll)
    (pollId optionId : String)
    (hmiss : ∀ p ∈ polls, ¬p.id = pollId) :
    votePoll cu pollId optionId polls = ⟨polls, none⟩ := by
  have hfind : polls.find? (fun p => p.id == pollId) = none :=
    List.find?_eq_none.mpr (fun p hp => by simpa using hmiss p hp)
  cases cu with
  | none => rfl
  | some u => simp [votePoll, hfind]

/-- Witness for C9's theorem: voting on the absent poll id `nope` is a
no-op. -/
theorem votePoll_unknown_poll_noop_witness :
    votePoll (some uStudent) "nope" "optA" [pollEx] = ⟨[pollEx], none⟩ :=
  votePoll_unknown_poll_noop (some uStudent) [pollEx] "nope" "optA" (by decide)

theorem filter_fresh_cons {α : Type} (idf : α → String) (newId : String)
    (x : α) (hx : idf x = newId) (l : List α) (hfresh : newId ∉ l.map idf) :
    (x :: l).filter (fun a => idf a != newId) = l := by
  rw [List.filter_cons, if_neg (by simp [hx])]
  apply List.filter_eq_self.mpr
  intro a ha
  simp only [bne_iff_ne, ne_eq]
  exact fun h => hfresh (h ▸ List.mem_map_of_mem idf ha)

theorem filter_fresh_append {α : Type} (idf : α → String) (newId : String)
    (x : α) (hx : idf x = newId) (l : List α) (hfresh : newId ∉ l.map idf) :
    (l ++ [x]).filter (fun a => idf a != newId) = l := by
  rw [List.filter_append, List.filter_cons, if_neg (by simp [hx])]
  rw [List.filter_nil, List.append_nil]
  apply List.filter_eq_self.mpr
  intro a ha
  simp only [bne_iff_ne, ne_eq]
  exact fun h => hfresh (h ▸ List.mem_map_of_mem idf ha)

/-- C4 (amended): when the generated id does not already occur in the
collection, a failed create mutation (announcement, exam, poll or resource)
leaves the local collection exactly equal to its state before the optimistic
insert. -/
theorem create_rollback_restores (u : User) (newId : String)
    (dA : AnnouncementData) (dE : ExamData) (dP : PollData)
    (dR : ResourceData) (now : Int) (anns : List Announcement)
    (exams : List Exam) (polls : List Poll) (ress : List Resource) :
    (newId ∉ anns.map Announcement.id →
      (addAnnouncement (some u) newId dA true anns).1 = anns)
    ∧ (newId ∉ exams.map Exam.id →
      (addExam (some u) newId dE true exams).1 = exams)
    ∧ (newId ∉ polls.map Poll.id →
      (addPoll (some u) newId now dP true polls).1 = polls)
    ∧ (newId ∉ ress.map Resource.id →
      (addResource (some u) newId now dR true ress).1 = ress) := by
  refine ⟨?_, ?_, ?_, ?_⟩
  · intro h
    simp only [addAnnouncement]
    exact filter_fresh_cons Announcement.id newId _ rfl anns h
  · intro h
    simp only [addExam]
    exact filter_fresh_append Exam.id newId _ rfl exams h
  · intro h
    simp only [addPoll]
    exact filter_fresh_cons Poll.id newId _ rfl polls h
  · intro h
    simp only [addResource]
    exact filter_fresh_cons Resource.id newId _ rfl ress h

/-- Witness for C4's theorem: a failed announcement create with the fresh id
`fresh` restores the one-element collection. -/
theorem create_rollback_restores_witness :
    (addAnnouncement (some uAdmin) "fresh" annData0 true [annX]).1 = [annX] :=
  (create_rollback_restores uAdmin "fresh" annData0 examData0 pollData0
    resData0 0 [annX] [] [] []).1 (by decide)

/-- Counterexample to C4 as stated: when the generated id collides with an
existing item's id (`x`), the compensating filter also removes the old item,
so the collection is not restored. -/
theorem create_rollback_restores_cex :
    (addAnnouncement (some uAdmin) "x" annData0 true [annX]).1 ≠ [annX] := by
  decide

/-- C10: with no logged-in user, every create mutation returns its collection
unchanged and issues no remote call. -/
theorem create_requires_login (newId : String) (dA : AnnouncementData)
    (dE : ExamData) (dP : PollData) (dR : ResourceData) (now : Int)
    (fails : Bool) (anns : List Announcement) (exams : List Exam)
    (polls : List Poll) (ress : List Resource) :
    addAnnouncement none newId dA fails anns = (anns, false)
    ∧ addExam none newId dE fails exams = (exams, false)
    ∧ addPoll none newId now dP fails polls = (polls, false)
    ∧ addResource none newId now dR fails ress = (ress, false) :=
  ⟨rfl, rfl, rfl, rfl⟩

theorem codeVisible_eq_specVisible (u : User) (tc : Option String) :
    codeVisible u tc = specVisible u tc := by
  cases tc with
  | none => rfl
  | some s => simp [codeVisible, specVisible, jsFalsyOpt]

/-- C5 (amended): each of the four collection filters returns the collection
unchanged for an unrestricted role (Admin / Responsable), and otherwise keeps
exactly the items whose target class is absent, the empty string, or equal to
the user's class-group, in order. -/
theorem access_filter_spec (u : User) (anns : List Announcement)
    (exams : List Exam) (polls : List Poll) (ress : List Resource) :
    (filteredAnnouncements (some u) anns
      = if isUnrestricted u then anns
        else anns.filter (fun a => specVisible u a.targetClass))
    ∧ (filteredExams (some u) exams
      = if isUnrestricted u then exams
        else exams.filter (fun e => specVisible u e.targetClass))
    ∧ (filteredPolls (some u) polls
      = if isUnrestricted u then polls
        else polls.filter (fun p => specVisible u p.targetClass))
    ∧ (filteredResources (some u) ress
      = if isUnrestricted u then ress
        else ress.filter (fun r => specVisible u r.targetClass)) := by
  refine ⟨?_, ?_, ?_, ?_⟩
  · cases hr : isUnrestricted u with
    | true => simp [filteredAnnouncements, hr]
    | false =>
      simp only [filteredAnnouncements, hr, if_neg Bool.false_ne_true]
      exact List.filter_congr (fun a _ => codeVisible_eq_specVisible u _)
  · cases hr : isUnrestricted u with
    | true => simp [filteredExams, hr]
    | false =>
      simp only [filteredExams, hr, if_neg Bool.false_ne_true]
      exact List.filter_congr (fun e _ => codeVisible_eq_specVisible u _)
  · cases hr : isUnrestricted u with
    | true => simp [filteredPolls, hr]
    | false =>
      simp only [filteredPolls, hr, if_neg Bool.false_ne_true]
      exact List.filter_congr (fun p _ => codeVisible_eq_specVisible u _)
  · cases hr : isUnrestricted u with
    | true => simp [filteredResources, hr]
    | false =>
      simp only [filteredResources, hr, if_neg Bool.false_ne_true]
      exact List.filter_congr (fun r _ => codeVisible_eq_specVisible u _)

/-- Counterexample to C5 as stated: for the class-10B student, the code keeps
an announcement whose stored target class is the empty string, though that
target class is neither absent nor equal to "10B". -/
theorem access_filter_cex :
    filteredAnnouncements (some uStudent) [annWide, ann10A, annEmptyTC]
      ≠ [annWide, ann10A, annEmptyTC].filter
          (fun a => specVisibleOrig uStudent a.targetClass) := by
  decide

/-- C8: login succeeds exactly when some user record matches the input email
case-insensitively and the input password by plain equality; on success a
matching user becomes the current user, and on failure the current user is
unchanged. -/
theorem handleLogin_spec (email password : String) (users : List User)
    (cu : Option User) :
    ((handleLogin email password users cu).1 = true
        ↔ ∃ u ∈ users, toLowerStr u.email = toLowerStr email
            ∧ u.password = password)
    ∧ ((handleLogin email password users cu).1 = true →
        ∃ u ∈ users, (toLowerStr u.email = toLowerStr email
            ∧ u.password = password)
          ∧ (handleLogin email password users cu).2 = some u)
    ∧ ((handleLogin email password users cu).1 = false →
        (handleLogin email password users cu).2 = cu) := by
  cases hfind : users.find? (fun u =>
      toLowerStr u.email == toLowerStr email && u.password == password) with
  | none =>
    have hno : ∀ u ∈ users,
        ¬(toLowerStr u.email = toLowerStr email ∧ u.password = password) := by
      intro u hu hc
      have h1 := List.find?_eq_none.mp hfind u hu
      rw [Bool.and_eq_true, beq_iff_eq, beq_iff_eq] at h1
      exact h1 ⟨hc.1, hc.2⟩
    refine ⟨?_, ?_, ?_⟩
    · constructor
      · intro h
        rw [handleLogin, hfind] at h
        cases h
      · rintro ⟨u, hu, hc⟩
        exact absurd hc (hno u hu)
    · intro h
      rw [handleLogin, hfind] at h
      cases h
    · intro _
      rw [handleLogin, hfind]
  | some u =>
    have hmem := List.mem_of_find?_eq_some hfind
    have hp := List.find?_some hfind
    rw [Bool.and_eq_true, beq_iff_eq, beq_iff_eq] at hp
    refine ⟨?_, ?_, ?_⟩
    · constructor
      · intro _
        exact ⟨u, hmem, hp.1, hp.2⟩
      · intro _
        rw [handleLogin, hfind]
    · intro _
      refine ⟨u, hmem, ⟨hp.1, hp.2⟩, ?_⟩
      rw [handleLogin, hfind]
    · intro hfalse
      rw [handleLogin, hfind] at hfalse
      cases hfalse

/-- Witness for C8's theorem: logging in with the admin's email in capitals
and the right password makes that admin the current user. -/
theorem handleLogin_spec_witness :
    ∃ u ∈ [uAdmin], (toLowerStr u.email = toLowerStr "ROOT@eco.com"
        ∧ u.password = "pw")
      ∧ (handleLogin "ROOT@eco.com" "pw" [uAdmin] none).2 = some u :=
  (handleLogin_spec "ROOT@eco.com" "pw" [uAdmin] none).2.1 (by decide)

theorem countP_insertByTs (q : AppNotification → Bool) (x : AppNotification) :
    ∀ l : List AppNotification,
      (insertByTs x l).countP q = l.countP q + (if q x = true then 1 else 0) := by
  intro l
  induction l with
  | nil => simp [insertByTs, List.countP_cons]
  | cons y l ih =>
    unfold insertByTs
    split <;> simp only [List.countP_cons, ih] <;> omega

theorem countP_sortByTsDesc (q : AppNotification → Bool) :
    ∀ l : List AppNotification, (sortByTsDesc l).countP q = l.countP q := by
  intro l
  induction l with
  | nil => rfl
  | cons x l ih =>
    rw [sortByTsDesc, countP_insertByTs, ih, List.countP_cons]

theorem string_append_right_inj (p s t : String) : p ++ s = p ++ t ↔ s = t := by
  constructor
  · intro h
    have h2 : (p ++ s).data = (p ++ t).data := congrArg String.data h
    rw [String.data_append, String.data_append] at h2
    exact String.ext (List.append_cancel_left h2)
  · intro h; rw [h]

theorem beq_append_left (p s t : String) : (p ++ s == p ++ t) = (s == t) := by
  by_cases h : s = t
  · simp [h]
  · have h2 : ¬(p ++ s = p ++ t) := fun hc =>
      h ((string_append_right_inj p s t).mp hc)
    simp [h, h2]

theorem ann_ne_exam (s t : String) : ¬("ann-" ++ s = "exam-" ++ t) := by
  intro h
  have h2 : ("ann-" ++ s).data = ("exam-" ++ t).data := congrArg String.data h
  rw [String.data_append, String.data_append,
    show ("ann-" : String).data = ['a', 'n', 'n', '-'] from rfl,
    show ("exam-" : String).data = ['e', 'x', 'a', 'm', '-'] from rfl] at h2
  simp only [List.cons_append] at h2
  injection h2 with hh _
  exact absurd hh (by decide)

theorem poll_ne_exam (s t : String) : ¬("poll-" ++ s = "exam-" ++ t) := by
  intro h
  have h2 : ("poll-" ++ s).data = ("exam-" ++ t).data := congrArg String.data h
  rw [String.data_append, String.data_append,
    show ("poll-" : String).data = ['p', 'o', 'l', 'l', '-'] from rfl,
    show ("exam-" : String).data = ['e', 'x', 'a', 'm', '-'] from rfl] at h2
  simp only [List.cons_append] at h2
  injection h2 with hh _
  exact absurd hh (by decide)

theorem ann_ne_poll (s t : String) : ¬("ann-" ++ s = "poll-" ++ t) := by
  intro h
  have h2 : ("ann-" ++ s).data = ("poll-" ++ t).data := congrArg String.data h
  rw [String.data_append, String.data_append,
    show ("ann-" : String).data = ['a', 'n', 'n', '-'] from rfl,
    show ("poll-" : String).data = ['p', 'o', 'l', 'l', '-'] from rfl] at h2
  simp only [List.cons_append] at h2
  injection h2 with hh _
  exact absurd hh (by decide)

theorem exam_ne_poll (s t : String) : ¬("exam-" ++ s = "poll-" ++ t) := by
  intro h
  have h2 : ("exam-" ++ s).data = ("poll-" ++ t).data := congrArg String.data h
  rw [String.data_append, String.data_append,
    show ("exam-" : String).data = ['e', 'x', 'a', 'm', '-'] from rfl,
    show ("poll-" : String).data = ['p', 'o', 'l', 'l', '-'] from rfl] at h2
  simp only [List.cons_append] at h2
  injection h2 with hh _
  exact absurd hh (by decide)

theorem countP_idkey {α : Type} (idf : α → String) (q : α → Bool) :
    ∀ (l : List α) (e : α), e ∈ l → (l.map idf).Nodup →
      l.countP (fun x => (idf x == idf e) && q x)
        = if q e = true then 1 else 0 := by
  intro l
  induction l with
  | nil => intro e he; cases he
  | cons a l ih =>
    intro e he hnd
    rw [List.map_cons, List.nodup_cons] at hnd
    rcases List.mem_cons.mp he with rfl | hmem
    · rw [List.countP_cons]
      have hzero : l.countP (fun x => (idf x == idf e) && q x) = 0 := by
        rw [List.countP_eq_zero]
        intro b hb
        simp only [Bool.and_eq_true, beq_iff_eq, not_and]
        intro hid _
        exact hnd.1 (hid ▸ List.mem_map_of_mem idf hb)
      rw [hzero]
      simp
    · have hx : ¬idf a = idf e := by
        intro hEq
        exact hnd.1 (hEq ▸ List.mem_map_of_mem idf hmem)
      rw [List.countP_cons, ih e hmem hnd.2]
      simp [hx]

theorem examInWindow_iff (now : Int) (e : Exam) :
    examInWindow now e = true
      ↔ (-86400000 < e.date - now ∧ e.date - now < 691200000) := by
  unfold examInWindow differenceInDays truncDiv
  simp only [Bool.and_eq_true, decide_eq_true_eq]
  by_cases hd : 0 ≤ e.date - now
  · rw [if_pos hd]
    omega
  · rw [if_neg hd]
    omega

theorem pollNotifCond_iff (uid : String) (now : Int) (p : Poll) :
    pollNotifCond uid now p = true
      ↔ ((-3600000 < now - p.createdAt ∧ now - p.createdAt < 176400000)
          ∧ (jsGet p.userVotes uid = none ∨ jsGet p.userVotes uid = some "")) := by
  unfold pollNotifCond differenceInHours truncDiv
  cases hl : jsGet p.userVotes uid with
  | none =>
    by_cases hd : 0 ≤ now - p.createdAt
    · rw [if_pos hd]
      simp
      omega
    · rw [if_neg hd]
      simp
      omega
  | some s =>
    by_cases hs : s = ""
    · subst hs
      by_cases hd : 0 ≤ now - p.createdAt
      · rw [if_pos hd]
        simp
        omega
      · rw [if_neg hd]
        simp
        omega
    · simp [hs]

/-- C6 (amended): the deriver yields exactly one alert for a visible exam
precisely when the whole-day difference between its date and now, truncated
toward zero, lies in 0..7 — that is, when the exam date lies in the open
interval from one day before now to eight days after now.  The exam at
exactly seven days yields one alert, at eight days none, a full day in the
past none. -/
theorem exam_alert_window (u : User) (exams : List Exam)
    (anns : List Announcement) (polls : List Poll) (now : Int) (e : Exam)
    (he : e ∈ exams) (hnd : (exams.map Exam.id).Nodup) :
    (notifications (some u) exams anns polls now).countP
        (fun n => n.id == "exam-" ++ e.id)
      = if -86400000 < e.date - now ∧ e.date - now < 691200000
        then 1 else 0 := by
  rw [show notifications (some u) exams anns polls now
      = sortByTsDesc ((exams.filter (examInWindow now)).map examNotif
          ++ (anns.filter (annInWindow now)).map annNotif
          ++ (polls.filter (pollNotifCond u.id now)).map pollNotif) from rfl]
  rw [countP_sortByTsDesc, List.countP_append, List.countP_append]
  have hann : ((anns.filter (annInWindow now)).map annNotif).countP
      (fun n => n.id == "exam-" ++ e.id) = 0 := by
    rw [List.countP_map, List.countP_eq_zero]
    intro a _
    simp only [Function.comp_apply, annNotif, beq_iff_eq]
    exact ann_ne_exam a.id e.id
  have hpoll : ((polls.filter (pollNotifCond u.id now)).map pollNotif).countP
      (fun n => n.id == "exam-" ++ e.id) = 0 := by
    rw [List.countP_map, List.countP_eq_zero]
    intro p _
    simp only [Function.comp_apply, pollNotif, beq_iff_eq]
    exact poll_ne_exam p.id e.id
  have hexam : ((exams.filter (examInWindow now)).map examNotif).countP
      (fun n => n.id == "exam-" ++ e.id)
      = if examInWindow now e = true then 1 else 0 := by
    rw [List.countP_map, List.countP_filter]
    have hfn : (fun a : Exam =>
          ((fun n : AppNotification => n.id == "exam-" ++ e.id) ∘ examNotif) a
            && examInWindow now a)
        = fun a => (Exam.id a == Exam.id e) && examInWindow now a := by
      funext a
      simp only [Function.comp_apply, examNotif]
      rw [beq_append_left]
    rw [hfn]
    exact countP_idkey Exam.id (examInWindow now) exams e he hnd
  rw [hexam, hann, hpoll]
  simp only [examInWindow_iff]
  simp

/-- Witness for C6's theorem: the exam dated exactly seven days after now
yields exactly one alert. -/
theorem exam_alert_window_witness :
    (notifications (some uStudent) [exam7d] [] [] 0).countP
        (fun n => n.id == "exam-" ++ exam7d.id) = 1 := by
  rw [exam_alert_window uStudent [exam7d] [] [] 0 exam7d (by decide)
    (by decide)]
  decide

/-- Counterexample to C6 as stated: an exam dated one hour before now is
outside the claimed inclusive window from now to now plus seven days, yet
the deriver still yields one alert for it (truncation maps the negative
one-hour difference to zero days). -/
theorem exam_alert_window_cex :
    (notifications (some uStudent) [examPast1h] [] [] 0).countP
        (fun n => n.id == "exam-" ++ examPast1h.id) = 1
      ∧ examPast1h.date < 0 := by
  constructor
  · decide
  · decide

/-- C7 (amended): the deriver yields exactly one success item for a visible
poll precisely when the whole-hour difference between now and its creation
time, truncated toward zero, lies in 0..48 — that is, when the creation time
lies in the open interval from 49 hours before now to one hour after now —
and the current user's ledger value in the poll is absent or the empty
string. -/
theorem poll_success_window (u : User) (exams : List Exam)
    (anns : List Announcement) (polls : List Poll) (now : Int) (p : Poll)
    (hp : p ∈ polls) (hnd : (polls.map Poll.id).Nodup) :
    (notifications (some u) exams anns polls now).countP
        (fun n => n.id == "poll-" ++ p.id)
      = if (-3600000 < now - p.createdAt ∧ now - p.createdAt < 176400000)
            ∧ (jsGet p.userVotes u.id = none ∨ jsGet p.userVotes u.id = some "")
        then 1 else 0 := by
  rw [show notifications (some u) exams anns polls now
      = sortByTsDesc ((exams.filter (examInWindow now)).map examNotif
          ++ (anns.filter (annInWindow now)).map annNotif
          ++ (polls.filter (pollNotifCond u.id now)).map pollNotif) from rfl]
  rw [countP_sortByTsDesc, List.countP_append, List.countP_append]
  have hexam : ((exams.filter (examInWindow now)).map examNotif).countP
      (fun n => n.id == "poll-" ++ p.id) = 0 := by
    rw [List.countP_map, List.countP_eq_zero]
    intro a _
    simp only [Function.comp_apply, examNotif, beq_iff_eq]
    exact exam_ne_poll a.id p.id
  have hann : ((anns.filter (annInWindow now)).map annNotif).countP
      (fun n => n.id == "poll-" ++ p.id) = 0 := by
    rw [List.countP_map, List.countP_eq_zero]
    intro a _
    simp only [Function.comp_apply, annNotif, beq_iff_eq]
    exact ann_ne_poll a.id p.id
  have hpoll : ((polls.filter (pollNotifCond u.id now)).map pollNotif).countP
      (fun n => n.id == "poll-" ++ p.id)
      = if pollNotifCond u.id now p = true then 1 else 0 := by
    rw [List.countP_map, List.countP_filter]
    have hfn : (fun a : Poll =>
          ((fun n : AppNotification => n.id == "poll-" ++ p.id) ∘ pollNotif) a
            && pollNotifCond u.id now a)
        = fun a => (Poll.id a == Poll.id p) && pollNotifCond u.id now a := by
      funext a
      simp only [Function.comp_apply, pollNotif]
      rw [beq_append_left]
    rw [hfn]
    exact countP_idkey Poll.id (pollNotifCond u.id now) polls p hp hnd
  rw [hexam, hann, hpoll]
  simp only [pollNotifCond_iff]
  simp

/-- Witness for C7's theorem: a poll created 47 hours ago in which the user
has no ledger entry yields exactly one success item. -/
theorem poll_success_window_witness :
    (notifications (some uStudent) [] [] [pollFresh] 169200000).countP
        (fun n => n.id == "poll-" ++ pollFresh.id) = 1 := by
  rw [poll_success_window uStudent [] [] [pollFresh] 169200000 pollFresh
    (by decide) (by decide)]
  decide

/-- Counterexample to C7 as stated: a poll created 48.5 hours ago was not
created within the last 48 hours, yet the deriver still yields one success
item for it (truncation maps 48.5 hours to 48). -/
theorem poll_success_window_cex :
    (notifications (some uStudent) [] [] [pollFresh] 174600000).countP
        (fun n => n.id == "poll-" ++ pollFresh.id) = 1
      ∧ 48 * 3600000 < 174600000 - pollFresh.createdAt := by
  constructor
  · decide
  · decide
